import Mathlib

/-!
Verification development for the `Backend` repository (`src/index.js` and the
two unnamed revisions).  The definitions below are a shallow embedding of the
Express route handlers: JavaScript objects become association lists keyed by
strings, JavaScript numbers on the integer range become `Int`, fallible
lookups become `Option`, and each handler becomes a pure function from the
relevant store state and request fields to the updated state and the response.
-/

namespace Backend

/-- A JavaScript object property read: first entry with the given key.
Objects built by the handlers never carry duplicate keys, and insertion
order is preserved, matching JS object semantics. -/
def lookupA {α : Type} : List (String × α) → String → Option α
  | [], _ => none
  | (k', v) :: rest, k => if k' == k then some v else lookupA rest k

/-- A JavaScript object property write: overwrite the entry in place if the
key is present, otherwise append the new entry at the end. -/
def setA {α : Type} : List (String × α) → String → α → List (String × α)
  | [], k, v => [(k, v)]
  | (k', v') :: rest, k, v =>
      if k' == k then (k', v) :: rest else (k', v') :: setA rest k v

/-- A value stored under an item key of `cartData`.  The signup handler
(`src/index.js:176-178`) preallocates 300 numeric slots holding `0`, while
the size-keyed `/addtocart` handler (`src/index.js:801-807`) stores a nested
object from size label to quantity; both shapes occur in one map. -/
inductive CartVal
  | num (n : Int)
  | obj (m : List (String × Int))
deriving DecidableEq

/-- The `cartData` field of a user document. -/
abbrev CartData := List (String × CartVal)

/-- JS truthiness test for `userData.cartData[itemId]`: `undefined` and the
number `0` are falsy, any object is truthy. -/
def jsFalsy : Option CartVal → Bool
  | none => true
  | some (.num n) => n == 0
  | some (.obj _) => false

/-- JS truthiness test for `userData.cartData[itemId][size]`, a number or
`undefined`. -/
def numFalsy : Option Int → Bool
  | none => true
  | some n => n == 0

/-- Inner-object mutation of the size-keyed `/addtocart` handler,
`src/index.js:804-807`:
`if (!cartData[itemId][size]) cartData[itemId][size] = 0;`
`cartData[itemId][size] += 1;`. -/
def bumpInner (inner : List (String × Int)) (size : String) : List (String × Int) :=
  let inner1 := if numFalsy (lookupA inner size) then setA inner size 0 else inner
  setA inner1 size ((lookupA inner1 size).getD 0 + 1)

/-- Cart mutation of the size-keyed `/addtocart` handler,
`src/index.js:799-807`:
`if (!cartData[itemId]) cartData[itemId] = {};`
then the `bumpInner` lines on the nested object.
When the slot holds a nonzero number the guards are skipped and the
property writes land on a primitive wrapper, so the stored map is unchanged. -/
def addToCartData (cart : CartData) (itemId size : String) : CartData :=
  let cart1 := if jsFalsy (lookupA cart itemId) then setA cart itemId (.obj []) else cart
  match lookupA cart1 itemId with
  | some (.obj inner) => setA cart1 itemId (.obj (bumpInner inner size))
  | some (.num _) => cart1
  | none => cart1

/-- Cart mutation of the size-keyed `/removefromcart` handler,
`src/index.js:829-833`:
`if (cartData[itemId] && cartData[itemId][size] > 0) cartData[itemId][size] -= 1;`.
A numeric slot is either falsy (`0`) or indexes to `undefined`, so the guard
fails and the cart is unchanged. -/
def removeFromCartData (cart : CartData) (itemId size : String) : CartData :=
  match lookupA cart itemId with
  | some (.obj inner) =>
      match lookupA inner size with
      | some q => if q > 0 then setA cart itemId (.obj (setA inner size (q - 1))) else cart
      | none => cart
  | some (.num _) => cart
  | none => cart

/-- The `/removefromcart` handler mutates the cart and then unconditionally
answers `res.send("Removed")` (`src/index.js:835-836`). -/
def removeFromCartResult (cart : CartData) (itemId size : String) : CartData × String :=
  (removeFromCartData cart itemId size, "Removed")

/-- Quantity read off a cart for a given item and size; a missing entry or a
numeric slot reads as zero. -/
def cartQty (cart : CartData) (itemId size : String) : Int :=
  match lookupA cart itemId with
  | some (.obj inner) => (lookupA inner size).getD 0
  | some (.num _) => 0
  | none => 0

/-- The cart built by the signup handler, `src/index.js:175-178`:
`let cart = {}; for (let i = 0; i < 300; i++) cart[i] = 0;` —
300 zero-valued numeric slots keyed by the decimal strings `"0".."299"`. -/
def signupCart : CartData :=
  (List.range 300).map (fun i => (toString i, CartVal.num 0))

/-- One cart mutation request against the size-keyed handlers. -/
inductive CartOp
  | add (itemId size : String)
  | remove (itemId size : String)
deriving DecidableEq

/-- Apply a single cart request to a cart state. -/
def applyOp (cart : CartData) : CartOp → CartData
  | .add i s => addToCartData cart i s
  | .remove i s => removeFromCartData cart i s

/-- Sequentially apply a list of cart requests. -/
def runOps (ops : List CartOp) (cart : CartData) : CartData :=
  ops.foldl applyOp cart

/-- Every numeric slot of the cart is the zero placeholder written by signup;
nonzero numeric slots never arise in the size-keyed revision. -/
def valWf : CartVal → Prop
  | .num n => n = 0
  | .obj _ => True

/-- All slots of a cart are well-formed in the sense of `valWf`. -/
def cartWf (cart : CartData) : Prop := ∀ kv ∈ cart, valWf kv.2

/-- All quantities stored in a slot are nonnegative. -/
def valNonneg : CartVal → Prop
  | .num _ => True
  | .obj m => ∀ kv ∈ m, 0 ≤ kv.2

/-- All quantities stored anywhere in a cart are nonnegative. -/
def cartNonneg (cart : CartData) : Prop := ∀ kv ∈ cart, valNonneg kv.2

/-! ### User store (`src/index.js:144-166` schema, handlers below it) -/

/-- A `Users` document: mongoose-generated identity, profile fields, the
bcrypt hash in `password`, and the `cartData` map. -/
structure User where
  id : String
  name : String
  email : String
  password : String
  address : String
  cartData : CartData
deriving DecidableEq

/-- `Users.findOne({ email })` — first document whose email field equals the
query string exactly (`src/index.js:170`). -/
def findOneByEmail (db : List User) (email : String) : Option User :=
  db.find? (fun u => u.email == email)

/-- `Users.findOne({ _id })` — first document with the given identity
(`src/index.js:799`). -/
def findById (db : List User) (uid : String) : Option User :=
  db.find? (fun u => u.id == uid)

/-- `Users.findOneAndUpdate({ _id }, { cartData })` — replace the cart of the
first matching document (`src/index.js:809`). -/
def updateFirst : List User → String → CartData → List User
  | [], _, _ => []
  | u :: rest, uid, cart =>
      if u.id == uid then { u with cartData := cart } :: rest
      else u :: updateFirst rest uid cart

/-- The payload signed by `jwt.sign({ user: { id } }, secret)`
(`src/index.js:192-198`). -/
structure Jwt where
  user_id : String
deriving DecidableEq

/-- Token issuance over the shared secret; pure, as in the source. -/
def jwtSign (uid : String) : Jwt := ⟨uid⟩

/-- Outcome of the `/signup` handler. -/
inductive SignupResult
  | conflict
  | ok (token : Jwt)
deriving DecidableEq

/-- Freshly created user document of the signup handler
(`src/index.js:182-188`): the store-generated identity is passed in as
`newId`, the password field holds the bcrypt hash, and the cart is the
300-slot zero map. -/
def mkSignupUser (newId username email hashedPassword address : String) : User :=
  { id := newId, name := username, email := email, password := hashedPassword,
    address := address, cartData := signupCart }

/-- The `/signup` handler, `src/index.js:169-200`: look up the email; on a
hit answer the 400 conflict body without touching the store; otherwise hash
the password, save the new user and answer with a signed token.  `hash`
abstracts `bcrypt.hash` and `newId` the store-generated identity. -/
def signup (db : List User) (hash : String → String)
    (newId username email password address : String) : List User × SignupResult :=
  match findOneByEmail db email with
  | some _ => (db, .conflict)
  | none =>
      (db ++ [mkSignupUser newId username email (hash password) address],
       .ok (jwtSign newId))

/-- Outcome of the `/login` handler. -/
inductive LoginResult
  | ok (token : Jwt)
  | wrongPassword
  | wrongEmail
deriving DecidableEq

/-- The `/login` handler, `src/index.js:203-221`: find the user by email,
compare the password against the stored hash, and sign a token only when the
comparison succeeds.  `compare` abstracts `bcrypt.compare`. -/
def login (db : List User) (compare : String → String → Bool)
    (email password : String) : LoginResult :=
  match findOneByEmail db email with
  | some user =>
      if compare password user.password then .ok (jwtSign user.id)
      else .wrongPassword
  | none => .wrongEmail

/-! ### Cart endpoints as seen by an authenticated request (`src/index.js:788-853`) -/

/-- Response space of the cart mutation endpoints: a 200 body, the 404
`NotFound(user)` outcome of the specified contract, or the 500 produced by
the `catch` branch. -/
inductive HResp
  | okBody (body : String)
  | notFoundUser
  | serverError
deriving DecidableEq

/-- The `/addtocart` handler after `fetchUser`, `src/index.js:788-815`:
`findOne` by the token's user id, mutate the cart, persist, send `"Added"`.
A missing user makes `userData.cartData[itemId]` throw, and the `catch`
branch answers the 500 — there is no presence check. -/
def addToCartHandler (db : List User) (uid itemId size : String) :
    List User × HResp :=
  match findById db uid with
  | none => (db, .serverError)
  | some u =>
      (updateFirst db uid (addToCartData u.cartData itemId size), .okBody "Added")

/-- The `/removefromcart` handler after `fetchUser`, `src/index.js:818-841`;
same shape as `addToCartHandler`. -/
def removeFromCartHandler (db : List User) (uid itemId size : String) :
    List User × HResp :=
  match findById db uid with
  | none => (db, .serverError)
  | some u =>
      (updateFirst db uid (removeFromCartData u.cartData itemId size),
       .okBody "Removed")

/-- Outcome of the `/getcart` handler, `src/index.js:844-853`. -/
inductive GetCartResult
  | ok (cart : CartData)
  | notFoundUser
  | serverError
deriving DecidableEq

/-- The `/getcart` handler after `fetchUser`: `findOne` by the token's user
id and send `userData.cartData`; a missing user throws on the dereference and
the `catch` branch answers the 500. -/
def getCartHandler (db : List User) (uid : String) : GetCartResult :=
  match findById db uid with
  | none => .serverError
  | some u => .ok u.cartData

/-! ### Catalog store (`src/index.js:54-141, 224-229`) -/

/-- A `Product` document (`src/index.js:54-95`). -/
structure Product where
  id : Int
  name : String
  image : String
  category : String
  new_price : Int
  old_price : Int
  description : String
  sizes : List String
deriving DecidableEq

/-- The request fields of `/addproduct`. -/
structure ProductFields where
  name : String
  image : String
  category : String
  new_price : Int
  old_price : Int
  description : String
  sizes : List String
deriving DecidableEq

/-- Identifier computation of `/addproduct`, `src/index.js:98-106`:
`products.slice(-1)[0].id + 1` when the collection is nonempty, else `1`. -/
def computeNextId (products : List Product) : Int :=
  match products.getLast? with
  | some last => last.id + 1
  | none => 1

/-- The `/addproduct` handler, `src/index.js:97-124`: compute the id from the
current collection and save the new document at the end. -/
def addProduct (catalog : List Product) (f : ProductFields) : List Product :=
  catalog ++ [{ id := computeNextId catalog, name := f.name, image := f.image,
                category := f.category, new_price := f.new_price,
                old_price := f.old_price, description := f.description,
                sizes := f.sizes }]

/-- `Product.findOneAndDelete({ id })` — remove the first document with the
given id, a no-op when none matches (`src/index.js:128`). -/
def removeProductCat (catalog : List Product) (pid : Int) : List Product :=
  catalog.eraseP (fun p => p.id == pid)

/-- The `/removeproduct` handler, `src/index.js:127-134`: delete and answer
`success: true` unconditionally. -/
def removeProductHandler (catalog : List Product) (pid : Int) :
    List Product × Bool :=
  (removeProductCat catalog pid, true)

/-- The `/newcollections` handler, `src/index.js:224-229`:
`products.slice(1).slice(-8)` — drop the first product, then keep the last 8
of the remainder (`slice(-8)` starts at `max(length - 8, 0)`). -/
def newcollections (products : List Product) : List Product :=
  let sliced := products.drop 1
  sliced.drop (sliced.length - 8)

/-- One catalog mutation request. -/
inductive CatOp
  | create (f : ProductFields)
  | delete (pid : Int)

/-- Apply a single catalog request. -/
def applyCatOp (c : List Product) : CatOp → List Product
  | .create f => addProduct c f
  | .delete pid => removeProductCat c pid

/-- Sequentially apply a list of catalog requests. -/
def runCatOps (ops : List CatOp) (c : List Product) : List Product :=
  ops.foldl applyCatOp c

/-- A catalog state reachable from the empty collection by create and delete
requests. -/
def catReachable (c : List Product) : Prop := ∃ ops, runCatOps ops [] = c

/-! ### Concurrent read-modify-write executions of the cart handlers

Each cart handler reads the whole `cartData`, mutates it in memory, and
writes the whole map back (`src/index.js:799-809`).  A concurrent execution
of several requests is an interleaving of their read and write events against
the persisted store. -/

/-- An event of request `j`: its store read or its store write. -/
inductive CEv
  | rd (j : Nat)
  | wr (j : Nat)

/-- Persisted cart plus the snapshot each in-flight request has read. -/
structure ConcState where
  store : CartData
  snaps : List (Option CartData)

/-- One interleaving step: a read takes a snapshot of the persisted store; a
write persists the snapshot mutated by that request's operation, overwriting
whatever is there — the handler's `findOneAndUpdate` replaces the full map. -/
def concStep (reqs : List CartOp) (st : ConcState) : CEv → ConcState
  | .rd j => ⟨st.store, st.snaps.set j (some st.store)⟩
  | .wr j =>
      match st.snaps.getD j none with
      | none => st
      | some snap =>
          match reqs[j]? with
          | none => st
          | some op => ⟨applyOp snap op, st.snaps⟩

/-- Final persisted cart after running the requests under a schedule. -/
def concRun (reqs : List CartOp) (sched : List CEv) (init : CartData) : CartData :=
  (sched.foldl (concStep reqs) ⟨init, List.replicate reqs.length none⟩).store

/-! ### Lemmas about the JS-object embedding -/

theorem lookupA_setA {α : Type} (m : List (String × α)) (k k' : String) (v : α) :
    lookupA (setA m k v) k' = if k' = k then some v else lookupA m k' := by
  induction m with
  | nil =>
      simp only [setA, lookupA]
      by_cases h : k' = k
      · simp [h]
      · simp [h, Ne.symm h]
  | cons a rest ih =>
      obtain ⟨ka, va⟩ := a
      by_cases hk : ka = k
      · subst hk
        by_cases h : k' = ka
        · simp [setA, lookupA, h]
        · simp [setA, lookupA, h, Ne.symm h]
      · by_cases h1 : ka = k'
        · subst h1
          simp [setA, lookupA, hk]
        · by_cases h2 : k' = k
          · subst h2
            simp [setA, lookupA, hk, h1, ih]
          · simp [setA, lookupA, hk, h1, h2, ih]

theorem mem_setA {α : Type} {m : List (String × α)} {k : String} {v : α}
    {kv : String × α} (h : kv ∈ setA m k v) : kv.2 = v ∨ kv ∈ m := by
  induction m with
  | nil =>
      simp only [setA, List.mem_singleton] at h
      exact Or.inl (by rw [h])
  | cons a rest ih =>
      obtain ⟨ka, va⟩ := a
      by_cases hk : ka = k
      · simp only [setA, hk, beq_self_eq_true, if_true, List.mem_cons] at h
        rcases h with h | h
        · exact Or.inl (by rw [h])
        · exact Or.inr (List.mem_cons_of_mem _ h)
      · simp only [setA, beq_iff_eq, hk, if_false, List.mem_cons] at h
        rcases h with h | h
        · exact Or.inr (by rw [h]; exact List.mem_cons_self _ _)
        · rcases ih h with h' | h'
          · exact Or.inl h'
          · exact Or.inr (List.mem_cons_of_mem _ h')

theorem lookupA_mem {α : Type} {m : List (String × α)} {k : String} {v : α}
    (h : lookupA m k = some v) : ∃ k', (k', v) ∈ m := by
  induction m with
  | nil => simp [lookupA] at h
  | cons a rest ih =>
      obtain ⟨ka, va⟩ := a
      by_cases hk : ka = k
      · refine ⟨ka, ?_⟩
        simp only [lookupA, hk, beq_self_eq_true, if_true, Option.some.injEq] at h
        rw [← h]
        exact List.mem_cons_self _ _
      · simp only [lookupA, beq_iff_eq, hk, if_false] at h
        obtain ⟨k', hk'⟩ := ih h
        exact ⟨k', List.mem_cons_of_mem _ hk'⟩

/-! ### Lemmas about the signup cart -/

theorem signupCart_vals {kv : String × CartVal} (h : kv ∈ signupCart) :
    kv.2 = CartVal.num 0 := by
  simp only [signupCart, List.mem_map, List.mem_range] at h
  obtain ⟨i, _, h2⟩ := h
  rw [← h2]

theorem cartQty_signupCart (i s : String) : cartQty signupCart i s = 0 := by
  unfold cartQty
  split
  · next inner heq =>
      obtain ⟨k', hk'⟩ := lookupA_mem heq
      exact absurd (signupCart_vals hk') (by simp)
  · rfl
  · rfl

theorem cartWf_signupCart : cartWf signupCart := by
  intro kv h
  rw [signupCart_vals h]
  exact rfl

theorem cartNonneg_signupCart : cartNonneg signupCart := by
  intro kv h
  rw [signupCart_vals h]
  exact trivial

/-! ### Cart invariants -/

theorem cartNonneg_setA {cart : CartData} {v : CartVal}
    (h : cartNonneg cart) (hv : valNonneg v) (k : String) :
    cartNonneg (setA cart k v) := by
  intro kv hkv
  rcases mem_setA hkv with h' | h'
  · rw [h']; exact hv
  · exact h kv h'

theorem cartWf_setA {cart : CartData} {v : CartVal}
    (h : cartWf cart) (hv : valWf v) (k : String) :
    cartWf (setA cart k v) := by
  intro kv hkv
  rcases mem_setA hkv with h' | h'
  · rw [h']; exact hv
  · exact h kv h'

theorem innerNonneg_setA {inner : List (String × Int)} {x : Int}
    (h : ∀ kv ∈ inner, 0 ≤ kv.2) (hx : 0 ≤ x) (s : String) :
    ∀ kv ∈ setA inner s x, 0 ≤ kv.2 := by
  intro kv hkv
  rcases mem_setA hkv with h' | h'
  · rw [h']; exact hx
  · exact h kv h'

theorem innerNonneg_lookupA {inner : List (String × Int)} {s : String}
    (h : ∀ kv ∈ inner, 0 ≤ kv.2) : 0 ≤ (lookupA inner s).getD 0 := by
  cases hq : lookupA inner s with
  | none => simp
  | some q =>
      obtain ⟨k', hk'⟩ := lookupA_mem hq
      simpa using h (k', q) hk'

theorem bumpInner_nonneg {inner : List (String × Int)}
    (h : ∀ kv ∈ inner, 0 ≤ kv.2) (s : String) :
    ∀ kv ∈ bumpInner inner s, 0 ≤ kv.2 := by
  unfold bumpInner
  have h1 : ∀ kv ∈ (if numFalsy (lookupA inner s) then setA inner s 0 else inner), 0 ≤ kv.2 := by
    split
    · exact innerNonneg_setA h le_rfl s
    · exact h
  exact innerNonneg_setA h1 (by linarith [innerNonneg_lookupA (s := s) h1]) s

theorem valNonneg_of_lookupA {cart : CartData} {i : String}
    {inner : List (String × Int)} (h : cartNonneg cart)
    (hl : lookupA cart i = some (.obj inner)) : ∀ kv ∈ inner, 0 ≤ kv.2 := by
  obtain ⟨k', hk'⟩ := lookupA_mem hl
  exact h (k', .obj inner) hk'

theorem cartNonneg_add {cart : CartData} (h : cartNonneg cart) (i s : String) :
    cartNonneg (addToCartData cart i s) := by
  simp only [addToCartData]
  set c1 := if jsFalsy (lookupA cart i) = true then setA cart i (CartVal.obj []) else cart
    with hc1
  have h1 : cartNonneg c1 := by
    rw [hc1]
    split
    · exact cartNonneg_setA h (by intro kv hkv; simp at hkv) i
    · exact h
  split
  · next inner heq =>
      exact cartNonneg_setA h1
        (show valNonneg (CartVal.obj (bumpInner inner s)) from
          bumpInner_nonneg (valNonneg_of_lookupA h1 heq) s) i
  · exact h1
  · exact h1

theorem cartNonneg_remove {cart : CartData} (h : cartNonneg cart) (i s : String) :
    cartNonneg (removeFromCartData cart i s) := by
  unfold removeFromCartData
  split
  · next inner heq =>
      split
      · next q hq =>
          split
          · next hqpos =>
              have hin := valNonneg_of_lookupA h heq
              exact cartNonneg_setA h
                (show valNonneg (CartVal.obj (setA inner s (q - 1))) from
                  innerNonneg_setA hin (by linarith) s) i
          · exact h
      · exact h
  · exact h
  · exact h

theorem cartWf_add {cart : CartData} (h : cartWf cart) (i s : String) :
    cartWf (addToCartData cart i s) := by
  simp only [addToCartData]
  set c1 := if jsFalsy (lookupA cart i) = true then setA cart i (CartVal.obj []) else cart
    with hc1
  have h1 : cartWf c1 := by
    rw [hc1]
    split
    · exact cartWf_setA h (show valWf (CartVal.obj []) from trivial) i
    · exact h
  split
  · next inner heq =>
      exact cartWf_setA h1 (show valWf (CartVal.obj (bumpInner inner s)) from trivial) i
  · exact h1
  · exact h1

theorem cartWf_remove {cart : CartData} (h : cartWf cart) (i s : String) :
    cartWf (removeFromCartData cart i s) := by
  unfold removeFromCartData
  split
  · next inner heq =>
      split
      · next q hq =>
          split
          · exact cartWf_setA h (show valWf (CartVal.obj (setA inner s (q - 1))) from trivial) i
          · exact h
      · exact h
  · exact h
  · exact h

theorem cartNonneg_runOps {cart : CartData} (h : cartNonneg cart)
    (ops : List CartOp) : cartNonneg (runOps ops cart) := by
  induction ops generalizing cart with
  | nil => exact h
  | cons op rest ih =>
      have hstep : cartNonneg (applyOp cart op) := by
        cases op with
        | add i s => exact cartNonneg_add h i s
        | remove i s => exact cartNonneg_remove h i s
      exact ih hstep

theorem cartQty_nonneg {cart : CartData} (h : cartNonneg cart) (i s : String) :
    0 ≤ cartQty cart i s := by
  unfold cartQty
  split
  · next inner heq => exact innerNonneg_lookupA (valNonneg_of_lookupA h heq)
  · exact le_rfl
  · exact le_rfl

theorem removeFromCartData_of_qty_zero {cart : CartData} {i s : String}
    (h : cartQty cart i s = 0) : removeFromCartData cart i s = cart := by
  unfold cartQty at h
  unfold removeFromCartData
  cases hli : lookupA cart i with
  | none => rfl
  | some v =>
      cases v with
      | num n => rfl
      | obj inner =>
          rw [hli] at h
          replace h : (lookupA inner s).getD 0 = 0 := h
          show (match lookupA inner s with
            | some q => if q > 0 then setA cart i (CartVal.obj (setA inner s (q - 1))) else cart
            | none => cart) = cart
          cases hq : lookupA inner s with
          | none => rfl
          | some q =>
              rw [hq, Option.getD_some] at h
              subst h
              simp

theorem bumpInner_lookupA_self (inner : List (String × Int)) (s : String) :
    lookupA (bumpInner inner s) s = some ((lookupA inner s).getD 0 + 1) := by
  cases hq : lookupA inner s with
  | none => simp [bumpInner, hq, numFalsy, lookupA_setA]
  | some q =>
      by_cases h0 : q = 0
      · subst h0
        simp [bumpInner, hq, numFalsy, lookupA_setA]
      · simp [bumpInner, hq, numFalsy, h0, lookupA_setA]

theorem cartQty_add_self {cart : CartData} (h : cartWf cart) (i s : String) :
    cartQty (addToCartData cart i s) i s = cartQty cart i s + 1 := by
  unfold cartQty addToCartData
  cases hli : lookupA cart i with
  | none => simp [hli, jsFalsy, lookupA_setA, bumpInner_lookupA_self, lookupA]
  | some v =>
      cases v with
      | num n =>
          have hn : n = 0 := by
            obtain ⟨k', hk'⟩ := lookupA_mem hli
            exact h (k', .num n) hk'
          subst hn
          simp [hli, jsFalsy, lookupA_setA, bumpInner_lookupA_self, lookupA]
      | obj inner =>
          simp [hli, jsFalsy, lookupA_setA, bumpInner_lookupA_self]

/-! ### Claim theorems -/

/-- Claim C1: for every user, item and size, the cart quantity is always a
nonnegative integer under every sequence of cart operations starting from the
signup cart; a decrement at quantity zero is a no-op that still answers the
ok body `"Removed"`, never a negative value and never an error. -/
theorem cart_quantities_nonneg (ops : List CartOp) (i s : String) :
    0 ≤ cartQty (runOps ops signupCart) i s ∧
    (cartQty (runOps ops signupCart) i s = 0 →
      removeFromCartResult (runOps ops signupCart) i s =
        (runOps ops signupCart, "Removed")) := by
  refine ⟨cartQty_nonneg (cartNonneg_runOps cartNonneg_signupCart ops) i s, fun h0 => ?_⟩
  unfold removeFromCartResult
  rw [removeFromCartData_of_qty_zero h0]

/-- Witness for C1: the empty operation sequence with item `"5"` and size
`"M"` — the quantity is zero there and the decrement is an ok no-op. -/
theorem cart_quantities_nonneg_witness :
    0 ≤ cartQty (runOps [] signupCart) "5" "M" ∧
    removeFromCartResult (runOps [] signupCart) "5" "M" =
      (runOps [] signupCart, "Removed") := by
  have h := cart_quantities_nonneg [] "5" "M"
  exact ⟨h.1, h.2 (cartQty_signupCart "5" "M")⟩

/-- Claim C2: `addToCart` increments the quantity stored for the pair
(item, size), lazily creating the nested per-item and per-size entries, and
two adds of item `"5"` size `"M"` on the signup cart yield quantity 2. -/
theorem addToCart_increments :
    (∀ (cart : CartData) (i s : String), cartWf cart →
      cartQty (addToCartData cart i s) i s = cartQty cart i s + 1) ∧
    cartQty (addToCartData (addToCartData signupCart "5" "M") "5" "M") "5" "M" = 2 := by
  constructor
  · intro cart i s h
    exact cartQty_add_self h i s
  · rw [cartQty_add_self (cartWf_add cartWf_signupCart "5" "M") "5" "M",
        cartQty_add_self cartWf_signupCart "5" "M", cartQty_signupCart]
    norm_num

/-- Witness for C2: adding to the empty cart creates the nested entry and
yields quantity one more than the absent entry's zero. -/
theorem addToCart_increments_witness :
    cartQty (addToCartData [] "7" "L") "7" "L" = cartQty [] "7" "L" + 1 :=
  addToCart_increments.1 [] "7" "L" (by intro kv hkv; simp at hkv)

/-- Claim C3: signup with an email already present fails with the conflict
outcome and has no side effects — the store is unchanged and no token is
issued — while signup with a fresh email appends exactly one user and issues
a token; matching is over exact email strings. -/
theorem signup_conflict_no_side_effects (db : List User) (hash : String → String)
    (newId username email password address : String) :
    ((∃ u ∈ db, u.email = email) →
      signup db hash newId username email password address = (db, SignupResult.conflict)) ∧
    ((∀ u ∈ db, u.email ≠ email) →
      signup db hash newId username email password address =
        (db ++ [mkSignupUser newId username email (hash password) address],
         SignupResult.ok (jwtSign newId))) := by
  constructor
  · rintro ⟨u, hu, he⟩
    have hsome : (findOneByEmail db email).isSome := by
      rw [findOneByEmail, List.find?_isSome]
      exact ⟨u, hu, by simp [he]⟩
    unfold signup
    cases hf : findOneByEmail db email with
    | none => rw [hf] at hsome; simp at hsome
    | some u' => rfl
  · intro hall
    have hnone : findOneByEmail db email = none := by
      rw [findOneByEmail, List.find?_eq_none]
      intro u hu
      simp [hall u hu]
    unfold signup
    rw [hnone]

/-- Witness for C3, the spec scenario: a fresh signup of `a@x.com` succeeds
with a token, and a second signup of the exact same email conflicts and
leaves the store unchanged. -/
theorem signup_conflict_no_side_effects_witness :
    (signup [] (fun p => String.append "h:" p) "id1" "bob" "a@x.com" "secret123" "" =
      ([mkSignupUser "id1" "bob" "a@x.com" (String.append "h:" "secret123") ""],
       SignupResult.ok (jwtSign "id1"))) ∧
    (signup [mkSignupUser "id1" "bob" "a@x.com" (String.append "h:" "secret123") ""]
        (fun p => String.append "h:" p) "id2" "eve" "a@x.com" "other" "" =
      ([mkSignupUser "id1" "bob" "a@x.com" (String.append "h:" "secret123") ""],
       SignupResult.conflict)) := by
  constructor
  · exact (signup_conflict_no_side_effects [] (fun p => String.append "h:" p)
      "id1" "bob" "a@x.com" "secret123" "").2 (by intro u hu; simp at hu)
  · exact (signup_conflict_no_side_effects
      [mkSignupUser "id1" "bob" "a@x.com" (String.append "h:" "secret123") ""]
      (fun p => String.append "h:" p) "id2" "eve" "a@x.com" "other" "").1
      ⟨mkSignupUser "id1" "bob" "a@x.com" (String.append "h:" "secret123") "",
       List.mem_singleton.mpr rfl, rfl⟩

/-- Claim C6: login with an email that matches a stored user but a password
whose hash comparison fails answers the wrong-password rejection, and the
token-issuing success branch is unreachable without a successful comparison. -/
theorem login_wrong_password_rejected (db : List User)
    (compare : String → String → Bool) (email password : String) (u : User)
    (hfind : findOneByEmail db email = some u)
    (hcmp : compare password u.password = false) :
    login db compare email password = LoginResult.wrongPassword ∧
    ∀ t, login db compare email password ≠ LoginResult.ok t := by
  have hlog : login db compare email password = LoginResult.wrongPassword := by
    unfold login
    rw [hfind]
    show (if compare password u.password = true then LoginResult.ok (jwtSign u.id)
      else LoginResult.wrongPassword) = LoginResult.wrongPassword
    rw [hcmp]
    simp
  exact ⟨hlog, fun t h => by rw [hlog] at h; cases h⟩

/-- Witness for C6: a one-user store and a comparison that always fails. -/
theorem login_wrong_password_rejected_witness :
    login [mkSignupUser "id1" "bob" "a@x.com" "h:secret123" ""]
        (fun _ _ => false) "a@x.com" "wrong" = LoginResult.wrongPassword := by
  exact (login_wrong_password_rejected
    [mkSignupUser "id1" "bob" "a@x.com" "h:secret123" ""]
    (fun _ _ => false) "a@x.com" "wrong"
    (mkSignupUser "id1" "bob" "a@x.com" "h:secret123" "") (by rfl) (by rfl)).1

/-- Claim C9 (implicit): for a validly signed token whose embedded user id
matches no record, the cart endpoints never produce the NotFound(user)
outcome of the specified contract — the handlers use the lookup result with
no presence check, so the missing user surfaces as the generic 500. -/
theorem cart_endpoints_never_notfound (db : List User) (uid itemId size : String) :
    (addToCartHandler db uid itemId size).2 ≠ HResp.notFoundUser ∧
    (removeFromCartHandler db uid itemId size).2 ≠ HResp.notFoundUser ∧
    getCartHandler db uid ≠ GetCartResult.notFoundUser ∧
    (findById db uid = none →
      (addToCartHandler db uid itemId size).2 = HResp.serverError ∧
      (removeFromCartHandler db uid itemId size).2 = HResp.serverError ∧
      getCartHandler db uid = GetCartResult.serverError) := by
  unfold addToCartHandler removeFromCartHandler getCartHandler
  cases h : findById db uid <;> simp [h]

/-- Witness for C9: an empty store, where the token's user id matches no
record and all three endpoints answer the 500. -/
theorem cart_endpoints_never_notfound_witness :
    (addToCartHandler [] "u1" "5" "M").2 = HResp.serverError ∧
    (removeFromCartHandler [] "u1" "5" "M").2 = HResp.serverError ∧
    getCartHandler [] "u1" = GetCartResult.serverError :=
  (cart_endpoints_never_notfound [] "u1" "5" "M").2.2.2 rfl

/-- Claim C10 (implicit): `addToCart` performs no validation of the item id
against the catalog store — for every authenticated user and every item id
for which no product exists, the handler still answers `"Added"`, persists
the mutated cart, and increments the entry for that id. -/
theorem addToCart_ignores_catalog (catalog : List Product) (db : List User)
    (uid itemId size : String) (u : User)
    (hfind : findById db uid = some u)
    (_hmiss : ∀ p ∈ catalog, toString p.id ≠ itemId)
    (hwf : cartWf u.cartData) :
    (addToCartHandler db uid itemId size).2 = HResp.okBody "Added" ∧
    (addToCartHandler db uid itemId size).1 =
      updateFirst db uid (addToCartData u.cartData itemId size) ∧
    cartQty (addToCartData u.cartData itemId size) itemId size =
      cartQty u.cartData itemId size + 1 := by
  unfold addToCartHandler
  rw [hfind]
  exact ⟨rfl, rfl, cartQty_add_self hwf itemId size⟩

/-- Witness for C10: an empty catalog (so item `"999"` matches no product)
and a one-user store; the add still succeeds and increments. -/
theorem addToCart_ignores_catalog_witness :
    (addToCartHandler [mkSignupUser "u1" "bob" "a@x.com" "h" ""] "u1" "999" "M").2 =
      HResp.okBody "Added" ∧
    (addToCartHandler [mkSignupUser "u1" "bob" "a@x.com" "h" ""] "u1" "999" "M").1 =
      updateFirst [mkSignupUser "u1" "bob" "a@x.com" "h" ""] "u1"
        (addToCartData (mkSignupUser "u1" "bob" "a@x.com" "h" "").cartData "999" "M") ∧
    cartQty (addToCartData (mkSignupUser "u1" "bob" "a@x.com" "h" "").cartData "999" "M")
        "999" "M" =
      cartQty (mkSignupUser "u1" "bob" "a@x.com" "h" "").cartData "999" "M" + 1 :=
  addToCart_ignores_catalog [] [mkSignupUser "u1" "bob" "a@x.com" "h" ""]
    "u1" "999" "M" (mkSignupUser "u1" "bob" "a@x.com" "h" "")
    rfl (by intro p hp; simp at hp) cartWf_signupCart

/-- Claim C7: the new-collections query returns exactly the last 8 products
of the list once its first product is excluded; for 9 or more products these
are the items at positions `length - 8 .. length - 1`, and there are exactly
8 of them. -/
theorem newcollections_window (l : List Product) (h : 9 ≤ l.length) :
    newcollections l = l.drop (l.length - 8) ∧ (newcollections l).length = 8 := by
  have h1 : newcollections l = l.drop (l.length - 8) := by
    simp only [newcollections]
    rw [List.drop_drop]
    congr 1
    rw [List.length_drop]
    omega
  refine ⟨h1, ?_⟩
  rw [h1, List.length_drop]
  omega

/-- Witness for C7: a 9-product list, where the window is positions 1..8. -/
theorem newcollections_window_witness :
    newcollections (List.replicate 9 (Product.mk 1 "n" "i" "c" 1 2 "d" [])) =
      (List.replicate 9 (Product.mk 1 "n" "i" "c" 1 2 "d" [])).drop
        ((List.replicate 9 (Product.mk 1 "n" "i" "c" 1 2 "d" [])).length - 8) ∧
    (newcollections (List.replicate 9 (Product.mk 1 "n" "i" "c" 1 2 "d" []))).length = 8 :=
  newcollections_window (List.replicate 9 (Product.mk 1 "n" "i" "c" 1 2 "d" [])) (by simp)

theorem removeProductCat_twice (c : List Product) (pid : Int)
    (hnodup : (c.map Product.id).Nodup) :
    removeProductCat (removeProductCat c pid) pid = removeProductCat c pid := by
  unfold removeProductCat
  induction c with
  | nil => rfl
  | cons p rest ih =>
      simp only [List.map_cons, List.nodup_cons] at hnodup
      obtain ⟨hpn, hrest⟩ := hnodup
      by_cases hp : p.id = pid
      · have htrue : (p.id == pid) = true := by simp [hp]
        rw [List.eraseP_cons, htrue, cond_true]
        apply List.eraseP_of_forall_not
        intro a ha hq
        simp only [beq_iff_eq] at hq
        exact hpn (List.mem_map.mpr ⟨a, ha, by rw [hq, hp]⟩)
      · have hfalse : (p.id == pid) = false := by simp [hp]
        rw [List.eraseP_cons, hfalse, cond_false, List.eraseP_cons, hfalse, cond_false,
          ih hrest]

/-! ### Catalog id assignment (claim C4) -/

/-- Product ids appear in strictly increasing order along the collection. -/
def idsSorted (c : List Product) : Prop := c.Pairwise (fun a b => a.id < b.id)

theorem mem_of_getLastSome {α : Type} {l : List α} {x : α}
    (h : l.getLast? = some x) : x ∈ l := by
  have hx := List.mem_getLast?_eq_getLast (x := x) (l := l) (by rw [h]; rfl)
  obtain ⟨hne, rfl⟩ := hx
  exact List.getLast_mem hne

theorem le_id_getLast : ∀ {c : List Product} {x : Product}, idsSorted c →
    c.getLast? = some x → ∀ a ∈ c, a.id ≤ x.id := by
  intro c
  induction c with
  | nil => intro x _ hl; simp at hl
  | cons p rest ih =>
      intro x hs hl a ha
      cases rest with
      | nil =>
          simp at hl ha
          rw [ha, hl]
      | cons q rest' =>
          rw [List.getLast?_cons_cons] at hl
          rcases List.mem_cons.mp ha with rfl | ha'
          · have hx : x ∈ q :: rest' := mem_of_getLastSome hl
            exact le_of_lt ((List.pairwise_cons.mp hs).1 x hx)
          · exact ih (List.pairwise_cons.mp hs).2 hl a ha'

theorem idsSorted_addProduct {c : List Product} (hs : idsSorted c)
    (f : ProductFields) : idsSorted (addProduct c f) := by
  unfold addProduct idsSorted
  rw [List.pairwise_append]
  refine ⟨hs, List.pairwise_singleton _ _, ?_⟩
  intro a ha b hb
  rw [List.mem_singleton] at hb
  subst hb
  show a.id < computeNextId c
  cases hl : c.getLast? with
  | none =>
      rw [List.getLast?_eq_none_iff] at hl
      subst hl
      simp at ha
  | some x =>
      unfold computeNextId
      rw [hl]
      show a.id < x.id + 1
      have := le_id_getLast hs hl a ha
      omega

theorem idsSorted_remove {c : List Product} (hs : idsSorted c) (pid : Int) :
    idsSorted (removeProductCat c pid) :=
  List.Pairwise.sublist (List.eraseP_sublist c) hs

theorem idsSorted_runCatOps {c : List Product} (hs : idsSorted c)
    (ops : List CatOp) : idsSorted (runCatOps ops c) := by
  induction ops generalizing c with
  | nil => exact hs
  | cons op rest ih =>
      have hstep : idsSorted (applyCatOp c op) := by
        cases op with
        | create f => exact idsSorted_addProduct hs f
        | delete pid => exact idsSorted_remove hs pid
      exact ih hstep

theorem idsSorted_of_reachable {c : List Product} (h : catReachable c) :
    idsSorted c := by
  obtain ⟨ops, rfl⟩ := h
  exact idsSorted_runCatOps List.Pairwise.nil ops

theorem nodup_ids_of_reachable {c : List Product} (h : catReachable c) :
    (c.map Product.id).Nodup :=
  List.Pairwise.map Product.id (fun _ _ hab => ne_of_lt hab) (idsSorted_of_reachable h)

/-- Claim C8: product deletion is idempotent at the public interface: the
handler answers ok whether or not a product with the id exists, deleting a
missing id leaves the catalog unchanged, and on every catalog reachable
through the public interface (equivalently, any catalog with pairwise
distinct ids) deleting the same id twice behaves the same as deleting it
once. -/
theorem removeProduct_idempotent_ok (c : List Product) (pid : Int) :
    (removeProductHandler c pid).2 = true ∧
    ((∀ p ∈ c, p.id ≠ pid) → removeProductCat c pid = c) ∧
    (catReachable c →
      removeProductCat (removeProductCat c pid) pid = removeProductCat c pid) ∧
    ((c.map Product.id).Nodup →
      removeProductCat (removeProductCat c pid) pid = removeProductCat c pid) := by
  refine ⟨rfl, ?_, ?_, fun hnodup => removeProductCat_twice c pid hnodup⟩
  · intro hall
    unfold removeProductCat
    apply List.eraseP_of_forall_not
    intro p hp
    simp [hall p hp]
  · intro hreach
    exact removeProductCat_twice c pid (nodup_ids_of_reachable hreach)

/-- Witness for C8: a one-product catalog and a missing id — the delete is an
ok no-op, and deleting twice equals deleting once. -/
theorem removeProduct_idempotent_ok_witness :
    (removeProductHandler [Product.mk 1 "n" "i" "c" 1 2 "d" []] 2).2 = true ∧
    removeProductCat [Product.mk 1 "n" "i" "c" 1 2 "d" []] 2 =
      [Product.mk 1 "n" "i" "c" 1 2 "d" []] ∧
    removeProductCat (removeProductCat [Product.mk 1 "n" "i" "c" 1 2 "d" []] 2) 2 =
      removeProductCat [Product.mk 1 "n" "i" "c" 1 2 "d" []] 2 := by
  have h := removeProduct_idempotent_ok [Product.mk 1 "n" "i" "c" 1 2 "d" []] 2
  exact ⟨h.1, h.2.1 (by decide), h.2.2.2 (by decide)⟩

/-- Request fields used by the concrete catalog scenarios. -/
def demoFields : ProductFields :=
  { name := "shirt", image := "img", category := "women", new_price := 10,
    old_price := 20, description := "d", sizes := ["M"] }

/-- Counterexample to C4 as stated: create two products (they get ids 1 and
2), delete the product with id 2, and the very next create assigns id 2
again — the id of a previously deleted product is reused. -/
theorem product_id_reused_after_delete :
    (addProduct (addProduct [] demoFields) demoFields).map Product.id = [1, 2] ∧
    (removeProductCat (addProduct (addProduct [] demoFields) demoFields) 2).map
      Product.id = [1] ∧
    computeNextId (removeProductCat (addProduct (addProduct [] demoFields)
      demoFields) 2) = 2 ∧
    (addProduct (removeProductCat (addProduct (addProduct [] demoFields)
      demoFields) 2) demoFields).map Product.id = [1, 2] := by
  decide

/-- Claim C4 (amended): for every reachable catalog state, the id assigned to
a newly created product is strictly greater than every existing id and equals
(max existing id) + 1 — it is one more than the id of some member that bounds
all the others — or 1 when the catalog is empty.  The non-reuse half of the
original claim fails: `product_id_reused_after_delete` shows a freshly
assigned id equal to the id of a previously deleted product. -/
theorem product_nextId_max_plus_one (c : List Product) (h : catReachable c) :
    (c = [] → computeNextId c = 1) ∧
    (∀ p ∈ c, p.id < computeNextId c) ∧
    (c ≠ [] → ∃ p ∈ c, computeNextId c = p.id + 1) := by
  have hs := idsSorted_of_reachable h
  refine ⟨?_, ?_, ?_⟩
  · rintro rfl; rfl
  · intro p hp
    cases hl : c.getLast? with
    | none =>
        rw [List.getLast?_eq_none_iff] at hl
        subst hl
        simp at hp
    | some x =>
        unfold computeNextId
        rw [hl]
        show p.id < x.id + 1
        have := le_id_getLast hs hl p hp
        omega
  · intro hne
    cases hl : c.getLast? with
    | none =>
        rw [List.getLast?_eq_none_iff] at hl
        exact absurd hl hne
    | some x =>
        refine ⟨x, mem_of_getLastSome hl, ?_⟩
        unfold computeNextId
        rw [hl]

/-- Witness for the amended C4 at the reachable empty catalog. -/
theorem product_nextId_max_plus_one_witness :
    computeNextId ([] : List Product) = 1 :=
  (product_nextId_max_plus_one [] ⟨[], rfl⟩).1 rfl

/-- Claim C5 evaluated on the code: two concurrent `addToCart` requests for
the same (user, item, size) whose read-modify-write cycles interleave as
read-read-write-write persist quantity 1, while the same two requests run
sequentially persist quantity 2 (= #adds − #removes clamped at 0) — the
handler's read-entire-cart / write-entire-cart pattern loses an update. -/
theorem addToCart_lost_update :
    cartQty (concRun [CartOp.add "5" "M", CartOp.add "5" "M"]
        [CEv.rd 0, CEv.rd 1, CEv.wr 0, CEv.wr 1] []) "5" "M" = 1 ∧
    cartQty (runOps [CartOp.add "5" "M", CartOp.add "5" "M"] []) "5" "M" = 2 := by
  decide

end Backend
